import Mathlib

/-!
Verification of the order sizing and placement pipeline of a webhook trading
bot (`app.py`).  Exchange responses are modelled as a snapshot structure, the
pipeline as a pure function returning its result together with the list of
outbound exchange calls it performed, and all numeric values as rationals.
-/

namespace WebhookBot

/-- One entry of a symbol's `filters` list, as a record of the dictionary keys
the code reads.  Every key is optional: the code reads `stepSize`, `minQty`
and `tickSize` with `[...]` and `minNotional` / `notional` with `.get`. -/
structure Filter where
  filterType : String
  stepSize : Option ℚ := none
  minQty : Option ℚ := none
  tickSize : Option ℚ := none
  minNotional : Option ℚ := none
  notional : Option ℚ := none
deriving DecidableEq, Repr

/-- One entry of the account's `balances` list. -/
structure Balance where
  asset : String
  free : ℚ
  locked : ℚ
deriving DecidableEq, Repr

/-- One entry of exchangeInfo's `symbols` list (the fields the code reads). -/
structure SymbolInfo where
  symbol : String
  filters : List Filter
deriving DecidableEq, Repr

/-- A snapshot of the remote exchange: the status and payload each endpoint
would answer with during this invocation.  `_req` raises an `HTTPException`
carrying status and body whenever the status is at least 400. -/
structure Exchange where
  exinfoStatus : ℕ := 200
  exinfoBody : String := ""
  exinfo : List SymbolInfo := []
  accountStatus : ℕ := 200
  accountBody : String := ""
  account : List Balance := []
  priceStatus : ℕ := 200
  priceBody : String := ""
  priceOf : String → ℚ := fun _ => 0
  buyStatus : ℕ := 200
  buyBody : String := ""
  ocoStatus : ℕ := 200
  ocoBody : String := ""

/-- Outbound exchange calls, in the order the pipeline performs them. -/
inductive Call where
  | getExchangeInfo
  | getAccount
  | getPrice (symbol : String)
  | postOrder (symbol side otype : String) (quantity : ℚ)
  | postOco (symbol : String) (quantity price stopPrice stopLimitPrice : ℚ)
deriving DecidableEq, Repr

/-- Outcome of `entry_for_symbol`: the two `{"ok": False, ...}` declines, the
`{"ok": True, ...}` success payload, or a raised `HTTPException`. -/
inductive EntryResult where
  | declinedGate
  | declinedQtySmall (notional price lot_step : ℚ)
  | accepted (buyBody ocoBody : String) (tp sl : ℚ)
  | httpError (status : ℕ) (detail : String)
deriving DecidableEq, Repr

/-- The environment configuration the pipeline reads:
`MAX_CONCURRENT_POSITIONS` (an int), `TP_PCT` and `SL_PCT`. -/
structure Config where
  maxPositions : ℤ
  tpPct : ℚ
  slPct : ℚ
deriving DecidableEq, Repr

/-- The defaults from the source: max positions 1, TP +15%, SL -6%. -/
def defaultConfig : Config := { maxPositions := 1, tpPct := 15, slPct := 6 }

/-- Ten to the integer power `z`, kept over `ℕ`-powers so it evaluates. -/
def pow10 (z : ℤ) : ℚ :=
  if 0 ≤ z then (10 : ℚ) ^ z.toNat else 1 / (10 : ℚ) ^ (-z).toNat

/-- Search upward from `z` for the first integer with `t ^ 2 < 10 ^ (2z+1)`,
i.e. with `t < 10 ^ (z + 1/2)`. -/
def log10search (t : ℚ) : ℕ → ℤ → ℤ
  | 0, z => z
  | n + 1, z => if t ^ 2 < pow10 (2 * z + 1) then z else log10search t n (z + 1)

/-- Models `round(math.log10 t)` for a positive rational `t`: the unique integer `z`
with `10 ^ (z - 1/2) ≤ t < 10 ^ (z + 1/2)`, found by comparing `t^2` against
odd powers of ten over `[-12, 12]`, a range covering every published tick or
step size.  No positive rational sits exactly on a half-power of ten, so the
float tie-breaking of Python's `round` never matters here. -/
def log10round (t : ℚ) : ℤ := log10search t 24 (-12)

/-- The decimal-digit count both helpers derive from a step or tick:
`max(0, -int(round(math.log10(x)))) if x > 0 else 8`. -/
def tickPrecision (x : ℚ) : ℕ :=
  if 0 < x then (max 0 (-(log10round x))).toNat else 8

/-- Round half to even, the rounding of Python's fixed-point `format`. -/
def roundHalfEven (x : ℚ) : ℤ :=
  if x - ⌊x⌋ = 1 / 2 then (if ⌊x⌋ % 2 = 0 then ⌊x⌋ else ⌊x⌋ + 1) else round x

/-- Source `_step(n, step)`: floor `n` to a multiple of `step`
(`math.floor(n / step) * step`; the `precision` local in the source is dead). -/
def _step (n step : ℚ) : ℚ := ⌊n / step⌋ * step

/-- Source `_round_to_tick(p, tick)`: `float(f"{p:.{precision}f}")`, i.e. `p` rounded
half-even at `tickPrecision tick` decimal digits. -/
def _round_to_tick (p tick : ℚ) : ℚ :=
  (roundHalfEven (p * 10 ^ tickPrecision tick) : ℚ) / 10 ^ tickPrecision tick

/-- The managed symbol → base-asset table of `has_any_position`. -/
def managedBases : List (String × String) :=
  [("SOLUSD", "SOL"), ("JUPUSD", "JUP"), ("BONKUSD", "BONK")]

/-- The `{asset: free + locked}` dict built by `has_any_position`; a duplicate
asset overwrites an earlier one, hence the search from the end. -/
def balTotal (balances : List Balance) (asset : String) : ℚ :=
  match balances.reverse.find? (fun b => b.asset == asset) with
  | some b => b.free + b.locked
  | none => 0

/-- Source `has_any_position` over an already-fetched balance list: some managed base
asset holds more than the 0.000001 dust threshold. -/
def has_any_position (balances : List Balance) : Bool :=
  managedBases.any (fun sb => decide (1 / 1000000 < balTotal balances sb.2))

/-- The stable-asset codes whose free balances are summed for sizing. -/
def stableAssets : List String := ["USD", "USDT", "BUSD", "USDC"]

/-- The `usd` accumulation loop: sum of `free` over stable-asset entries. -/
def stableFree (balances : List Balance) : ℚ :=
  (balances.filter (fun b => stableAssets.contains b.asset)).foldl
    (fun acc b => acc + b.free) 0

/-- The extraction `f.get("minNotional", f.get("notional", 10))`. -/
def minNotionalOf (f : Filter) : ℚ :=
  match f.minNotional, f.notional with
  | some v, _ => v
  | none, some v => v
  | none, none => 10

/-- The locals the filter loop of `entry_for_symbol` assigns. -/
structure ParsedFilters where
  lot_step : Option ℚ
  min_qty : Option ℚ
  min_notional : ℚ
  tick_size : Option ℚ
deriving DecidableEq, Repr

/-- One iteration of the filter loop: dispatch on `filterType`. -/
def pfStep (acc : ParsedFilters) (f : Filter) : ParsedFilters :=
  if f.filterType = "LOT_SIZE" then
    { acc with lot_step := f.stepSize, min_qty := f.minQty }
  else if f.filterType = "MIN_NOTIONAL" ∨ f.filterType = "NOTIONAL" then
    { acc with min_notional := minNotionalOf f }
  else if f.filterType = "PRICE_FILTER" then
    { acc with tick_size := f.tickSize }
  else acc

/-- The filter loop: `lot_step`/`tick_size` start unset, `min_notional` at 0. -/
def parseFilters (fs : List Filter) : ParsedFilters :=
  fs.foldl pfStep
    { lot_step := none, min_qty := none, min_notional := 0, tick_size := none }

/-- Source `get_symbol_filters`: serve from `EXINFO_CACHE` when present, otherwise
fetch the exchangeInfo catalog, cache and return the matching entry, or fail
with a 400.  Returns the result, the updated cache, and the calls made. -/
def get_symbol_filters (ex : Exchange) (cache : List (String × SymbolInfo))
    (symbol : String) :
    Except (ℕ × String) SymbolInfo × List (String × SymbolInfo) × List Call :=
  match cache.lookup symbol with
  | some s => (Except.ok s, cache, [])
  | none =>
    if 400 ≤ ex.exinfoStatus then
      (Except.error (ex.exinfoStatus, ex.exinfoBody), cache, [Call.getExchangeInfo])
    else
      match ex.exinfo.find? (fun s => s.symbol == symbol) with
      | some s => (Except.ok s, (symbol, s) :: cache, [Call.getExchangeInfo])
      | none =>
        (Except.error (400, "symbol " ++ symbol ++ " not found in exchangeInfo"),
         cache, [Call.getExchangeInfo])

/-- Line 153: `notional = max(min_notional + 1.0, usd * (notional_pct / 100.0))`. -/
def notionalFor (min_notional usd notional_pct : ℚ) : ℚ :=
  max (min_notional + 1) (usd * (notional_pct / 100))

/-- Lines 165-168: the three OCO exit prices derived from the entry price. -/
def exitPrices (tpPct slPct p tick : ℚ) : ℚ × ℚ × ℚ :=
  let tp_price := _round_to_tick (p * (1 + tpPct / 100)) tick
  let sl_stop := _round_to_tick (p * (1 - slPct / 100)) tick
  let sl_limit := _round_to_tick (sl_stop * (999 / 1000)) tick
  (tp_price, sl_stop, sl_limit)

/-- Steps 3-5 of `entry_for_symbol`: balances, sizing, market buy, OCO exit.
`trace` is the calls already performed by the earlier steps. -/
def afterFilters (cfg : Config) (ex : Exchange) (cache : List (String × SymbolInfo))
    (symbol : String) (notional_pct : ℚ) (trace : List Call)
    (lot_step tick_size min_notional : ℚ) :
    EntryResult × List Call × List (String × SymbolInfo) :=
  if 400 ≤ ex.accountStatus then
    (EntryResult.httpError ex.accountStatus ex.accountBody,
     trace ++ [Call.getAccount], cache)
  else
    let usd0 := stableFree ex.account
    let usd := if usd0 ≤ 0 then 600 else usd0
    let notional := notionalFor min_notional usd notional_pct
    if 400 ≤ ex.priceStatus then
      (EntryResult.httpError ex.priceStatus ex.priceBody,
       trace ++ [Call.getAccount, Call.getPrice symbol], cache)
    else
      let price := ex.priceOf symbol
      let raw_qty := notional / price
      let qty := _step raw_qty lot_step
      if qty ≤ 0 then
        (EntryResult.declinedQtySmall notional price lot_step,
         trace ++ [Call.getAccount, Call.getPrice symbol], cache)
      else
        if 400 ≤ ex.buyStatus then
          (EntryResult.httpError ex.buyStatus ex.buyBody,
           trace ++ [Call.getAccount, Call.getPrice symbol,
                     Call.postOrder symbol "BUY" "MARKET" qty], cache)
        else
          let ps := exitPrices cfg.tpPct cfg.slPct price tick_size
          if 400 ≤ ex.ocoStatus then
            (EntryResult.httpError ex.ocoStatus ex.ocoBody,
             trace ++ [Call.getAccount, Call.getPrice symbol,
                       Call.postOrder symbol "BUY" "MARKET" qty,
                       Call.postOco symbol qty ps.1 ps.2.1 ps.2.2], cache)
          else
            (EntryResult.accepted ex.buyBody ex.ocoBody ps.1 ps.2.1,
             trace ++ [Call.getAccount, Call.getPrice symbol,
                       Call.postOrder symbol "BUY" "MARKET" qty,
                       Call.postOco symbol qty ps.1 ps.2.1 ps.2.2], cache)

/-- Step 2 of `entry_for_symbol`: resolve the filters, fail with a 500 when
`lot_step` or `tick_size` cannot be determined, then continue. -/
def afterGate (cfg : Config) (ex : Exchange) (cache0 : List (String × SymbolInfo))
    (symbol : String) (notional_pct : ℚ) (trace : List Call) :
    EntryResult × List Call × List (String × SymbolInfo) :=
  match get_symbol_filters ex cache0 symbol with
  | (Except.error e, cache, calls) =>
    (EntryResult.httpError e.1 e.2, trace ++ calls, cache)
  | (Except.ok s, cache, calls) =>
    let pf := parseFilters s.filters
    match pf.lot_step, pf.tick_size with
    | some lot_step, some tick_size =>
      afterFilters cfg ex cache symbol notional_pct (trace ++ calls)
        lot_step tick_size pf.min_notional
    | some _, none =>
      (EntryResult.httpError 500 "Could not resolve LOT_SIZE or PRICE_FILTER",
       trace ++ calls, cache)
    | none, _ =>
      (EntryResult.httpError 500 "Could not resolve LOT_SIZE or PRICE_FILTER",
       trace ++ calls, cache)

/-- Source `entry_for_symbol`: the gate check (only when `MAX_POSITIONS == 1`, with
Python's short-circuit `and`), then steps 2-5. -/
def entry_for_symbol (cfg : Config) (ex : Exchange)
    (cache : List (String × SymbolInfo)) (symbol : String) (notional_pct : ℚ) :
    EntryResult × List Call × List (String × SymbolInfo) :=
  if cfg.maxPositions = 1 then
    if 400 ≤ ex.accountStatus then
      (EntryResult.httpError ex.accountStatus ex.accountBody,
       [Call.getAccount], cache)
    else if has_any_position ex.account then
      (EntryResult.declinedGate, [Call.getAccount], cache)
    else afterGate cfg ex cache symbol notional_pct [Call.getAccount]
  else afterGate cfg ex cache symbol notional_pct []

/-- Python dict assignment `d[k] = v` on an insertion-ordered association
list: overwrite in place when the key is present, append otherwise. -/
def dictSet (params : List (String × String)) (k v : String) :
    List (String × String) :=
  if params.any (fun kv => kv.1 == k) then
    params.map (fun kv => if kv.1 = k then (k, v) else kv)
  else params ++ [(k, v)]

/-- The key sequence of the signed payload: `sorted(params.keys())`. -/
def payloadKeys (params : List (String × String)) : List String :=
  (params.map Prod.fst).insertionSort (fun a b => a ≤ b)

/-- The query string `_sign` signs:
`"&".join([f"{k}={params[k]}" for k in sorted(params.keys())])`. -/
def signPayload (params : List (String × String)) : String :=
  String.intercalate "&"
    ((payloadKeys params).map (fun k => k ++ "=" ++ ((params.lookup k).getD "")))

/-- Source `_sign(params)`: the HMAC-SHA256 hex digest of the payload under the API
secret, with the digest function kept abstract as `mac`. -/
def _sign (mac : String → String) (params : List (String × String)) : String :=
  mac (signPayload params)

/-- The parameter transformation `_req` applies when `signed=True`: set
`params["timestamp"]`, sign everything now present, then set
`params["signature"]` to the digest. -/
def signedParams (mac : String → String) (ts : String)
    (params : List (String × String)) : List (String × String) :=
  let p1 := dictSet params "timestamp" ts
  dictSet p1 "signature" (_sign mac p1)

/-- The minQty-rewrite used to show the lot-size minimum is never enforced. -/
def setMinQty (v : Option ℚ) (f : Filter) : Filter := { f with minQty := v }

/-- Applies `setMinQty` across a symbol's whole rule set. -/
def mapMinQty (v : Option ℚ) (si : SymbolInfo) : SymbolInfo :=
  { si with filters := si.filters.map (setMinQty v) }

/-- A SOLUSD rule set: lot step 0.1 with minimum quantity 1, price tick 0.01,
minimum notional 10. -/
def siSOL : SymbolInfo :=
  { symbol := "SOLUSD",
    filters :=
      [{ filterType := "LOT_SIZE", stepSize := some (1 / 10), minQty := some 1 },
       { filterType := "PRICE_FILTER", tickSize := some (1 / 100) },
       { filterType := "NOTIONAL", minNotional := some 10 }] }

/-- An exchange snapshot: 1000 free USD, SOLUSD trading at 100, every
endpoint succeeding. -/
def exBase : Exchange :=
  { exinfo := [siSOL],
    account := [{ asset := "USD", free := 1000, locked := 0 }],
    priceOf := fun _ => 100 }

/-- Variant of `exBase` with the OCO endpoint rejecting the order with a 451. -/
def exOcoFail : Exchange :=
  { exBase with ocoStatus := 451, ocoBody := "oco rejected" }

/-- Variant of `exBase` with the account holding 2 SOL and no stable cash. -/
def exHolding : Exchange :=
  { exBase with account := [{ asset := "SOL", free := 2, locked := 0 }] }

/-- The default configuration with `MAX_CONCURRENT_POSITIONS=2`. -/
def config2 : Config := { maxPositions := 2, tpPct := 15, slPct := 6 }

end WebhookBot

namespace WebhookBot

/-- Claim C1: for every positive quantity step and raw quantity
`q = notional / price`, the quantity `_step` produces is a non-negative
integer multiple of the step and never exceeds `q`: the quantization
truncates downward and never rounds up. -/
theorem step_quantizes_down (step notional price : ℚ)
    (hstep : 0 < step) (hn : 0 ≤ notional) (hp : 0 < price) :
    ∃ k : ℕ, _step (notional / price) step = (k : ℚ) * step ∧
      _step (notional / price) step ≤ notional / price := by
  set q := notional / price with hq
  have hq0 : 0 ≤ q := div_nonneg hn hp.le
  have hfl : 0 ≤ ⌊q / step⌋ := Int.floor_nonneg.mpr (div_nonneg hq0 hstep.le)
  refine ⟨⌊q / step⌋.toNat, ?_, ?_⟩
  · rw [_step]
    congr 1
    exact_mod_cast (Int.toNat_of_nonneg hfl).symm
  · rw [_step]
    calc (⌊q / step⌋ : ℚ) * step ≤ q / step * step :=
          mul_le_mul_of_nonneg_right (Int.floor_le _) hstep.le
      _ = q := div_mul_cancel₀ q hstep.ne'

/-- Witness for C1 at step 0.1, notional 50, price 100. -/
theorem step_quantizes_down_witness :
    (0 : ℚ) < 1 / 10 ∧ (0 : ℚ) ≤ 50 ∧ (0 : ℚ) < 100 ∧
    ∃ k : ℕ, _step ((50 : ℚ) / 100) (1 / 10) = (k : ℚ) * (1 / 10) ∧
      _step ((50 : ℚ) / 100) (1 / 10) ≤ 50 / 100 :=
  ⟨by norm_num, by norm_num, by norm_num,
    step_quantizes_down (1 / 10) 50 100 (by norm_num) (by norm_num) (by norm_num)⟩

/-- Claim C2 counterexample: at minNotional 10, availableCash 210 and
percent 5 the raw notional 10.5 is not below minNotional, yet the notional
used is 11, not the raw value the claim's otherwise-branch demands. -/
theorem notional_otherwise_counterexample :
    ¬((210 : ℚ) * (5 / 100) < 10) ∧
    notionalFor 10 210 5 ≠ (210 : ℚ) * (5 / 100) := by
  constructor
  · norm_num
  · rw [notionalFor, max_eq_left (by norm_num : (210 : ℚ) * (5 / 100) ≤ 10 + 1)]
    norm_num

/-- Claim C2 amended: the notional is `max (minNotional + 1) raw`; it equals
`minNotional + 1` whenever the raw notional is below `minNotional + 1` (in
particular whenever it is below `minNotional`), and equals the raw notional
only when the raw notional is at least `minNotional + 1`. -/
theorem notional_floors_up (minN usd pct : ℚ) :
    (usd * (pct / 100) < minN → notionalFor minN usd pct = minN + 1) ∧
    (usd * (pct / 100) < minN + 1 → notionalFor minN usd pct = minN + 1) ∧
    (minN + 1 ≤ usd * (pct / 100) →
      notionalFor minN usd pct = usd * (pct / 100)) := by
  refine ⟨fun h => ?_, fun h => ?_, fun h => ?_⟩
  · exact max_eq_left (le_of_lt (h.trans_le (by linarith)))
  · exact max_eq_left h.le
  · exact max_eq_right h

/-- Witness for C2: cash 100 at 5% requests 5 < 10, sized to 11; cash 400 at
5% requests 20 ≥ 11, sized to 20. -/
theorem notional_floors_up_witness :
    notionalFor 10 100 5 = 11 ∧ notionalFor 10 400 5 = 20 := by
  constructor
  · have h := (notional_floors_up 10 100 5).1 (by norm_num)
    rw [h]; norm_num
  · have h := (notional_floors_up 10 400 5).2.2 (by norm_num)
    rw [h]; norm_num

/-- The filter fold leaves `min_notional` at its incoming value when no
minimum-notional rule of either shape occurs. -/
lemma pfFold_min_notional_const (fs : List Filter) (acc : ParsedFilters)
    (h : ∀ f ∈ fs, f.filterType ≠ "MIN_NOTIONAL" ∧ f.filterType ≠ "NOTIONAL") :
    (fs.foldl pfStep acc).min_notional = acc.min_notional := by
  induction fs generalizing acc with
  | nil => rfl
  | cons f fs ih =>
    rw [List.foldl_cons, ih _ (fun g hg => h g (List.mem_cons_of_mem f hg))]
    obtain ⟨h1, h2⟩ := h f (List.mem_cons_self f fs)
    rw [pfStep]
    split_ifs with hc1 hc2 hc3
    · rfl
    · rcases hc2 with hh | hh
      · exact absurd hh h1
      · exact absurd hh h2
    · rfl
    · rfl

/-- Claim C6 counterexample: a rule set with only LOT_SIZE and PRICE_FILTER
entries yields minimum notional 0, not the claimed default 10. -/
theorem min_notional_absent_counterexample :
    (parseFilters
      [{ filterType := "LOT_SIZE", stepSize := some (1 / 10), minQty := some 1 },
       { filterType := "PRICE_FILTER", tickSize := some (1 / 100) }]).min_notional
      = 0 ∧ (0 : ℚ) ≠ 10 := by
  constructor
  · rfl
  · norm_num

/-- Claim C6 amended: when no minimum-notional rule of either shape is
present, the minimum notional used for sizing stays 0; the default 10 applies
only when a MIN_NOTIONAL or NOTIONAL rule is present but carries neither a
`minNotional` nor a `notional` field. -/
theorem min_notional_default_amended :
    (∀ fs : List Filter,
      (∀ f ∈ fs, f.filterType ≠ "MIN_NOTIONAL" ∧ f.filterType ≠ "NOTIONAL") →
      (parseFilters fs).min_notional = 0) ∧
    (∀ (gs : List Filter) (f : Filter),
      (f.filterType = "MIN_NOTIONAL" ∨ f.filterType = "NOTIONAL") →
      f.minNotional = none → f.notional = none →
      (parseFilters (gs ++ [f])).min_notional = 10) := by
  constructor
  · intro fs h
    exact pfFold_min_notional_const fs _ h
  · intro gs f hft hm hn
    rw [parseFilters, List.foldl_append, List.foldl_cons, List.foldl_nil, pfStep]
    have hne : f.filterType ≠ "LOT_SIZE" := by
      rcases hft with h | h <;> simp [h]
    rw [if_neg hne, if_pos hft]
    simp [minNotionalOf, hm, hn]

/-- Witness for C6: a lone PRICE_FILTER gives 0; a lone field-less NOTIONAL
rule gives 10. -/
theorem min_notional_default_amended_witness :
    (parseFilters
      [{ filterType := "PRICE_FILTER", tickSize := some (1 / 100) }]).min_notional
      = 0 ∧
    (parseFilters [({ filterType := "NOTIONAL" } : Filter)]).min_notional = 10 :=
  ⟨min_notional_default_amended.1 _
    (by
      intro f hf
      rw [List.mem_singleton] at hf
      subst hf
      exact ⟨by decide, by decide⟩),
   min_notional_default_amended.2 [] _ (Or.inr rfl) rfl rfl⟩

/-- Claim C8 amended: whenever a lookup returns a rule set, an immediately
following lookup for the same symbol returns the structurally identical rule
set, is answered from the cache, and performs no exchange call at all. -/
theorem rules_cache_idempotent (ex : Exchange) (cache : List (String × SymbolInfo))
    (symbol : String) (s : SymbolInfo)
    (h : (get_symbol_filters ex cache symbol).1 = Except.ok s) :
    get_symbol_filters ex (get_symbol_filters ex cache symbol).2.1 symbol
      = (Except.ok s, (get_symbol_filters ex cache symbol).2.1, []) := by
  cases hl : List.lookup symbol cache with
  | some s0 =>
    simp only [get_symbol_filters, hl] at h ⊢
    rw [Except.ok.injEq] at h
    rw [h]
  | none =>
    by_cases hst : 400 ≤ ex.exinfoStatus
    · simp only [get_symbol_filters, hl, if_pos hst] at h
      exact absurd h (by simp)
    · cases hf : ex.exinfo.find? (fun t => t.symbol == symbol) with
      | some s0 =>
        simp only [get_symbol_filters, hl, if_neg hst, hf] at h ⊢
        rw [Except.ok.injEq] at h
        subst h
        simp [List.lookup]
      | none =>
        simp only [get_symbol_filters, hl, if_neg hst, hf] at h
        exact absurd h (by simp)

/-- Claim C8 counterexample: for a symbol the catalog does not list
(`FOOUSD`), the lookup raises and caches nothing, so the second sequential
lookup performs another exchangeInfo fetch — the claim's universal
"second lookup performs no network fetch" fails. -/
theorem rules_cache_unknown_counterexample :
    (get_symbol_filters exBase
        (get_symbol_filters exBase [] "FOOUSD").2.1 "FOOUSD").2.2
      = [Call.getExchangeInfo] ∧
    ([Call.getExchangeInfo] : List Call) ≠ [] := by
  exact ⟨rfl, by simp⟩

/-- Witness for C8: a first SOLUSD lookup on `exBase` fetches and returns
`siSOL`; the second is served from the cache with no calls. -/
theorem rules_cache_idempotent_witness :
    get_symbol_filters exBase (get_symbol_filters exBase [] "SOLUSD").2.1 "SOLUSD"
      = (Except.ok siSOL, (get_symbol_filters exBase [] "SOLUSD").2.1, []) :=
  rules_cache_idempotent exBase [] "SOLUSD" siSOL (by rfl)

/-- The account of `exHolding` (2 SOL) trips the managed-holding check. -/
lemma has_any_position_exHolding : has_any_position exHolding.account = true := by
  simp [exHolding, exBase, has_any_position, managedBases, balTotal, List.find?]
  norm_num

/-- Claim C3: with max positions 1 and an existing managed holding, the entry
declines (no error) after the gate's single balance fetch: no rules fetch, no
price fetch, no sizing balance fetch and no order call occurs. -/
theorem gate_blocks_entry (cfg : Config) (ex : Exchange)
    (cache : List (String × SymbolInfo)) (symbol : String) (pct : ℚ)
    (hmax : cfg.maxPositions = 1) (hok : ex.accountStatus < 400)
    (hpos : has_any_position ex.account = true) :
    entry_for_symbol cfg ex cache symbol pct
      = (EntryResult.declinedGate, [Call.getAccount], cache) := by
  rw [entry_for_symbol, if_pos hmax, if_neg (by omega), if_pos hpos]

/-- Witness for C3 on `exHolding`. -/
theorem gate_blocks_entry_witness :
    entry_for_symbol defaultConfig exHolding [] "SOLUSD" 5
      = (EntryResult.declinedGate, [Call.getAccount], []) :=
  gate_blocks_entry defaultConfig exHolding [] "SOLUSD" 5 rfl (by decide)
    has_any_position_exHolding

/-- Dict assignment of a fresh key appends it in insertion order. -/
lemma dictSet_append_of_not_mem (params : List (String × String)) (k v : String)
    (h : k ∉ params.map Prod.fst) :
    dictSet params k v = params ++ [(k, v)] := by
  have hany : params.any (fun kv => kv.1 == k) = false := by
    rw [List.any_eq_false]
    intro kv hkv heq
    rw [beq_iff_eq] at heq
    exact h (heq ▸ List.mem_map_of_mem Prod.fst hkv)
  rw [dictSet, if_neg (by simp [hany])]

/-- Claim C7 counterexample: a signed request for `{symbol: SOLUSD}` carries
exactly the keys `symbol`, `timestamp` and `signature` — no receive-window
tolerance parameter is ever injected. -/
theorem signing_no_recv_window_counterexample :
    (signedParams (fun s => s) "1700000000000"
        [("symbol", "SOLUSD")]).map Prod.fst
      = ["symbol", "timestamp", "signature"] ∧
    "recvWindow" ∉ (signedParams (fun s => s) "1700000000000"
        [("symbol", "SOLUSD")]).map Prod.fst := by
  constructor
  · rfl
  · intro hmem
    rw [(by rfl : (signedParams (fun s => s) "1700000000000"
        [("symbol", "SOLUSD")]).map Prod.fst
          = ["symbol", "timestamp", "signature"])] at hmem
    simp at hmem

/-- Claim C7 amended: a signed request injects a (local) timestamp but no
receive-window parameter; the signature is the MAC of the deterministic
key-sorted `key=value&...` concatenation of all parameters present before
signing — the signature itself excluded — and is appended afterwards as the
final parameter. -/
theorem signing_sorted_payload (mac : String → String) (ts : String)
    (params : List (String × String))
    (hts : "timestamp" ∉ params.map Prod.fst)
    (hsig : "signature" ∉ params.map Prod.fst) :
    signedParams mac ts params
      = (params ++ [("timestamp", ts)])
        ++ [("signature", mac (signPayload (params ++ [("timestamp", ts)])))] ∧
    List.Sorted (fun a b => a ≤ b) (payloadKeys (params ++ [("timestamp", ts)])) ∧
    List.Perm (payloadKeys (params ++ [("timestamp", ts)]))
      (params.map Prod.fst ++ ["timestamp"]) := by
  have h1 : dictSet params "timestamp" ts = params ++ [("timestamp", ts)] :=
    dictSet_append_of_not_mem _ _ _ hts
  refine ⟨?_, ?_, ?_⟩
  · simp only [signedParams, _sign]
    rw [h1]
    apply dictSet_append_of_not_mem
    rw [List.map_append]
    simp only [List.mem_append, List.map_cons, List.map_nil]
    rintro (hin | hin)
    · exact hsig hin
    · simp at hin
  · exact List.sorted_insertionSort _ _
  · rw [payloadKeys]
    have hp := List.perm_insertionSort (fun a b : String => a ≤ b)
      ((params ++ [("timestamp", ts)]).map Prod.fst)
    rw [List.map_append] at hp
    simpa using hp

/-- Witness for C7 at the concrete request `{symbol: SOLUSD}`. -/
theorem signing_sorted_payload_witness :
    signedParams (fun s => s) "1700000000000" [("symbol", "SOLUSD")]
      = ([("symbol", "SOLUSD")] ++ [("timestamp", "1700000000000")])
        ++ [("signature", (fun s : String => s)
              (signPayload ([("symbol", "SOLUSD")]
                ++ [("timestamp", "1700000000000")])))] ∧
    List.Sorted (fun a b => a ≤ b)
      (payloadKeys ([("symbol", "SOLUSD")] ++ [("timestamp", "1700000000000")])) ∧
    List.Perm
      (payloadKeys ([("symbol", "SOLUSD")] ++ [("timestamp", "1700000000000")]))
      (([("symbol", "SOLUSD")] : List (String × String)).map Prod.fst
        ++ ["timestamp"]) :=
  signing_sorted_payload (fun s => s) "1700000000000" [("symbol", "SOLUSD")]
    (by simp) (by simp)

/-- A 0.01 tick has `round(log10)` equal to -2. -/
lemma log10round_centi : log10round (1 / 100) = -2 := by
  norm_num [log10round, log10search, pow10, Int.toNat]

/-- A 0.01 tick is formatted at two decimal digits. -/
lemma tickPrecision_centi : tickPrecision (1 / 100) = 2 := by
  rw [tickPrecision, if_pos (by norm_num : (0 : ℚ) < 1 / 100), log10round_centi]
  rfl

/-- Evaluate a rational floor from its integer bounds. -/
lemma floor_eval {x : ℚ} {n : ℤ} (h1 : (n : ℚ) ≤ x) (h2 : x < n + 1) : ⌊x⌋ = n :=
  Int.floor_eq_iff.mpr ⟨h1, h2⟩

/-- Half-even rounding below the midpoint rounds down. -/
lemma roundHalfEven_lt_half (x : ℚ) (n : ℤ) (h1 : (n : ℚ) ≤ x)
    (h2 : x < (n : ℚ) + 1 / 2) : roundHalfEven x = n := by
  have hfl : ⌊x⌋ = n := floor_eval h1 (by linarith)
  rw [roundHalfEven, hfl, if_neg (by intro h; rw [sub_eq_iff_eq_add] at h; linarith),
    round_eq]
  exact floor_eval (by linarith) (by linarith)

/-- Half-even rounding above the midpoint rounds up. -/
lemma roundHalfEven_gt_half (x : ℚ) (n : ℤ) (h1 : (n : ℚ) + 1 / 2 < x)
    (h2 : x < (n : ℚ) + 1) : roundHalfEven x = n + 1 := by
  have hfl : ⌊x⌋ = n := floor_eval (by linarith) (by linarith)
  rw [roundHalfEven, hfl, if_neg (by intro h; rw [sub_eq_iff_eq_add] at h; linarith),
    round_eq]
  exact floor_eval (by push_cast; linarith) (by push_cast; linarith)

/-- Rounding `_round_to_tick` at tick 0.01 scales by 100. -/
lemma round_to_tick_centi (x : ℚ) :
    _round_to_tick x (1 / 100) = (roundHalfEven (x * 100) : ℚ) / 100 := by
  rw [_round_to_tick, tickPrecision_centi]
  norm_num

/-- The C4 scenario: entry 100, TP 15%, SL 6%, tick 0.01 gives exit prices
115.00, 94.00 and 93.906 rounded to 93.91. -/
lemma exitPrices_scenario : exitPrices 15 6 100 (1 / 100) = (115, 94, 9391 / 100) := by
  have h1 : _round_to_tick (100 * (1 + 15 / 100)) (1 / 100) = 115 := by
    rw [round_to_tick_centi,
      (by norm_num : (100 * (1 + 15 / 100) : ℚ) * 100 = 11500),
      roundHalfEven_lt_half 11500 11500 (by norm_num) (by norm_num)]
    norm_num
  have h2 : _round_to_tick (100 * (1 - 6 / 100)) (1 / 100) = 94 := by
    rw [round_to_tick_centi,
      (by norm_num : (100 * (1 - 6 / 100) : ℚ) * 100 = 9400),
      roundHalfEven_lt_half 9400 9400 (by norm_num) (by norm_num)]
    norm_num
  have h3 : _round_to_tick ((94 : ℚ) * (999 / 1000)) (1 / 100) = 9391 / 100 := by
    rw [round_to_tick_centi,
      (by norm_num : ((94 : ℚ) * (999 / 1000)) * 100 = 46953 / 5),
      roundHalfEven_gt_half (46953 / 5) 9390 (by norm_num) (by norm_num)]
    norm_num
  simp only [exitPrices]
  rw [h1, h2, h3]

/-- Claim C4: the exit prices are take-profit `p*(1+TP/100)`, stop-trigger
`p*(1-SL/100)` and stop-limit `stop*0.999`, each put through the tick
rounding; each result is an integer multiple of `10^-(tick precision)`; and
the scenario p=100, TP=15, SL=6, tick=0.01 yields 115.00, 94.00, 93.91. -/
theorem exit_prices_derived (p tpP slP tick : ℚ) :
    exitPrices tpP slP p tick
      = (_round_to_tick (p * (1 + tpP / 100)) tick,
         _round_to_tick (p * (1 - slP / 100)) tick,
         _round_to_tick (_round_to_tick (p * (1 - slP / 100)) tick * (999 / 1000))
           tick) ∧
    (∃ a b c : ℤ,
      (exitPrices tpP slP p tick).1 = (a : ℚ) / 10 ^ tickPrecision tick ∧
      (exitPrices tpP slP p tick).2.1 = (b : ℚ) / 10 ^ tickPrecision tick ∧
      (exitPrices tpP slP p tick).2.2 = (c : ℚ) / 10 ^ tickPrecision tick) ∧
    exitPrices 15 6 100 (1 / 100) = (115, 94, 9391 / 100) :=
  ⟨rfl, ⟨_, _, _, rfl, rfl, rfl⟩, exitPrices_scenario⟩

/-- The `siSOL` rule set parses to lot step 0.1, min qty 1, min notional 10,
tick 0.01. -/
lemma parseFilters_siSOL :
    parseFilters siSOL.filters
      = { lot_step := some (1 / 10), min_qty := some 1, min_notional := 10,
          tick_size := some (1 / 100) } := by
  rfl

/-- The snapshot `exBase` holds 1000 free stable dollars. -/
lemma stableFree_exBase : stableFree exBase.account = 1000 := by
  have hf : exBase.account.filter (fun b => stableAssets.contains b.asset)
      = [{ asset := "USD", free := 1000, locked := 0 }] := by rfl
  simp only [stableFree, hf, List.foldl_cons, List.foldl_nil]
  norm_num

/-- The snapshot `exBase` (only USD cash) holds no managed base asset. -/
lemma has_any_position_exBase : has_any_position exBase.account = false := by
  have h : ∀ asset, balTotal exBase.account asset = 0 ∨ asset = "USD" := by
    intro asset
    by_cases ha : asset = "USD"
    · exact Or.inr ha
    · left
      rw [balTotal]
      have : exBase.account.reverse.find? (fun b => b.asset == asset) = none := by
        rw [List.find?_eq_none]
        intro b hb
        simp only [exBase, List.mem_reverse, List.mem_singleton] at hb
        subst hb
        simpa using fun hh => ha hh.symm
      rw [this]
  simp only [has_any_position, managedBases, List.any_cons, List.any_nil]
  have h1 := (h "SOL").resolve_right (by decide)
  have h2 := (h "JUP").resolve_right (by decide)
  have h3 := (h "BONK").resolve_right (by decide)
  rw [h1, h2, h3]
  norm_num

/-- Claim C5: when the gate passes, rules resolve from cache, sizing yields a
positive quantity and the market buy succeeds, a 4xx/5xx answer to the OCO
exit call makes the invocation terminate as a fatal error carrying the
exchange's status and body, with the OCO post as the final exchange call: no
cancel, sell or any other call follows, so the entry is not rolled back. -/
theorem oco_failure_fatal (cfg : Config) (ex : Exchange)
    (cache : List (String × SymbolInfo)) (symbol : String) (pct : ℚ)
    (s : SymbolInfo) (lot_step tick_size : ℚ)
    (hmax : cfg.maxPositions = 1)
    (hacct : ex.accountStatus < 400)
    (hpos : has_any_position ex.account = false)
    (hcache : List.lookup symbol cache = some s)
    (hls : (parseFilters s.filters).lot_step = some lot_step)
    (htk : (parseFilters s.filters).tick_size = some tick_size)
    (hprice : ex.priceStatus < 400)
    (hbuy : ex.buyStatus < 400)
    (hoco : 400 ≤ ex.ocoStatus)
    (hqty : 0 < _step (notionalFor (parseFilters s.filters).min_notional
        (if stableFree ex.account ≤ 0 then 600 else stableFree ex.account) pct
        / ex.priceOf symbol) lot_step) :
    entry_for_symbol cfg ex cache symbol pct
      = (EntryResult.httpError ex.ocoStatus ex.ocoBody,
         [Call.getAccount, Call.getAccount, Call.getPrice symbol,
          Call.postOrder symbol "BUY" "MARKET"
            (_step (notionalFor (parseFilters s.filters).min_notional
              (if stableFree ex.account ≤ 0 then 600 else stableFree ex.account)
              pct / ex.priceOf symbol) lot_step),
          Call.postOco symbol
            (_step (notionalFor (parseFilters s.filters).min_notional
              (if stableFree ex.account ≤ 0 then 600 else stableFree ex.account)
              pct / ex.priceOf symbol) lot_step)
            (exitPrices cfg.tpPct cfg.slPct (ex.priceOf symbol) tick_size).1
            (exitPrices cfg.tpPct cfg.slPct (ex.priceOf symbol) tick_size).2.1
            (exitPrices cfg.tpPct cfg.slPct (ex.priceOf symbol) tick_size).2.2],
         cache) := by
  rw [entry_for_symbol, if_pos hmax, if_neg (by omega),
    if_neg (by simp [hpos])]
  simp only [afterGate, get_symbol_filters, hcache, hls, htk]
  simp only [afterFilters]
  rw [if_neg (by omega), if_neg (by omega), if_neg (not_le.mpr hqty),
    if_neg (by omega), if_pos hoco]
  simp

/-- Witness for C5 on `exOcoFail` with the SOLUSD rules cached. -/
theorem oco_failure_fatal_witness :
    entry_for_symbol defaultConfig exOcoFail [("SOLUSD", siSOL)] "SOLUSD" 5
      = (EntryResult.httpError 451 "oco rejected",
         [Call.getAccount, Call.getAccount, Call.getPrice "SOLUSD",
          Call.postOrder "SOLUSD" "BUY" "MARKET" (1 / 2),
          Call.postOco "SOLUSD" (1 / 2) 115 94 (9391 / 100)],
         [("SOLUSD", siSOL)]) := by
  have hsf : stableFree exOcoFail.account = 1000 := stableFree_exBase
  have hpos : has_any_position exOcoFail.account = false := has_any_position_exBase
  have hmn : (parseFilters siSOL.filters).min_notional = 10 := by
    rw [parseFilters_siSOL]
  have hq : _step (notionalFor (parseFilters siSOL.filters).min_notional
      (if stableFree exOcoFail.account ≤ 0 then 600 else stableFree exOcoFail.account)
      5 / exOcoFail.priceOf "SOLUSD") (1 / 10) = 1 / 2 := by
    rw [hsf, if_neg (by norm_num : ¬(1000 : ℚ) ≤ 0), hmn]
    have hpr : exOcoFail.priceOf "SOLUSD" = 100 := rfl
    have hnot : notionalFor 10 1000 5 = 50 := by
      rw [notionalFor, max_eq_right (by norm_num : (10 : ℚ) + 1 ≤ 1000 * (5 / 100))]
      norm_num
    rw [hpr, hnot, _step, (by norm_num : (50 : ℚ) / 100 / (1 / 10) = 5),
      floor_eval (n := 5) (by norm_num) (by norm_num)]
    norm_num
  have h := oco_failure_fatal defaultConfig exOcoFail [("SOLUSD", siSOL)] "SOLUSD" 5
    siSOL (1 / 10) (1 / 100) rfl (by decide) hpos (by rfl)
    (by rw [parseFilters_siSOL]) (by rw [parseFilters_siSOL]) (by decide)
    (by decide) (by decide) (by rw [hq]; norm_num)
  rw [h, hq]
  have hep : exitPrices defaultConfig.tpPct defaultConfig.slPct
      (exOcoFail.priceOf "SOLUSD") (1 / 100) = (115, 94, 9391 / 100) :=
    exitPrices_scenario
  rw [hep]
  rfl

/-- Appending balances in non-stable assets leaves the sized cash unchanged. -/
lemma stableFree_append_non_stable (a : List Balance) (extra : List Balance)
    (h : ∀ b ∈ extra, stableAssets.contains b.asset = false) :
    stableFree (a ++ extra) = stableFree a := by
  have hnil : extra.filter (fun b => stableAssets.contains b.asset) = [] := by
    rw [List.filter_eq_nil_iff]
    intro b hb
    rw [h b hb]
    exact Bool.false_ne_true
  simp only [stableFree, List.filter_append, hnil, List.append_nil]

/-- Lookup `get_symbol_filters` performs either no call or one exchangeInfo fetch. -/
lemma get_symbol_filters_calls (ex : Exchange) (cache : List (String × SymbolInfo))
    (symbol : String) :
    (get_symbol_filters ex cache symbol).2.2 = [] ∨
    (get_symbol_filters ex cache symbol).2.2 = [Call.getExchangeInfo] := by
  unfold get_symbol_filters
  cases hl : List.lookup symbol cache with
  | some s => left; rfl
  | none =>
    by_cases hst : 400 ≤ ex.exinfoStatus
    · rw [if_pos hst]; right; rfl
    · rw [if_neg hst]
      cases hf : ex.exinfo.find? (fun s => s.symbol == symbol) with
      | some s => right; rfl
      | none => right; rfl

/-- Steps 3-5 never yield the gate decline, extend the incoming trace, and
fetch the account at most once. -/
lemma afterFilters_shape (cfg : Config) (ex : Exchange)
    (cache : List (String × SymbolInfo)) (symbol : String) (pct : ℚ)
    (trace : List Call) (ls ts mn : ℚ) :
    (afterFilters cfg ex cache symbol pct trace ls ts mn).1
      ≠ EntryResult.declinedGate ∧
    ∃ k : List Call,
      (afterFilters cfg ex cache symbol pct trace ls ts mn).2.1 = trace ++ k ∧
      List.count Call.getAccount k ≤ 1 := by
  simp only [afterFilters]
  split_ifs <;>
    exact ⟨by simp, _, rfl, by simp [List.count_cons]⟩

/-- Steps 2-5 never yield the gate decline and fetch the account at most
once. -/
lemma afterGate_shape (cfg : Config) (ex : Exchange)
    (cache : List (String × SymbolInfo)) (symbol : String) (pct : ℚ) :
    (afterGate cfg ex cache symbol pct []).1 ≠ EntryResult.declinedGate ∧
    List.count Call.getAccount (afterGate cfg ex cache symbol pct []).2.1 ≤ 1 := by
  have hcalls := get_symbol_filters_calls ex cache symbol
  rcases hgf : get_symbol_filters ex cache symbol with ⟨r, c2, calls⟩
  rw [hgf] at hcalls
  simp only at hcalls
  have hc0 : List.count Call.getAccount calls = 0 := by
    rcases hcalls with h | h <;> subst h <;> rfl
  cases r with
  | error e =>
    simp only [afterGate, hgf]
    exact ⟨by simp, by simp [hc0]⟩
  | ok s =>
    simp only [afterGate, hgf]
    cases hls : (parseFilters s.filters).lot_step with
    | none => exact ⟨by simp, by simp [hc0]⟩
    | some ls =>
      cases hts : (parseFilters s.filters).tick_size with
      | none => exact ⟨by simp, by simp [hc0]⟩
      | some ts =>
        obtain ⟨hne, k, hk, hck⟩ :=
          afterFilters_shape cfg ex c2 symbol pct ([] ++ calls) ls ts
            (parseFilters s.filters).min_notional
        refine ⟨hne, ?_⟩
        rw [hk]
        simp only [List.nil_append, List.count_append]
        omega

/-- Steps 3-5 read the account only through the stable-cash sum: appending
non-stable holdings changes nothing. -/
lemma afterFilters_append_non_stable (cfg : Config) (ex : Exchange)
    (cache : List (String × SymbolInfo)) (symbol : String) (pct : ℚ)
    (trace : List Call) (ls ts mn : ℚ) (extra : List Balance)
    (hextra : ∀ b ∈ extra, stableAssets.contains b.asset = false) :
    afterFilters cfg { ex with account := ex.account ++ extra } cache symbol pct
      trace ls ts mn
      = afterFilters cfg ex cache symbol pct trace ls ts mn := by
  simp only [afterFilters]
  rw [stableFree_append_non_stable ex.account extra hextra]

/-- Step 2 onward ignores managed holdings entirely. -/
lemma afterGate_append_non_stable (cfg : Config) (ex : Exchange)
    (cache : List (String × SymbolInfo)) (symbol : String) (pct : ℚ)
    (trace : List Call) (extra : List Balance)
    (hextra : ∀ b ∈ extra, stableAssets.contains b.asset = false) :
    afterGate cfg { ex with account := ex.account ++ extra } cache symbol pct trace
      = afterGate cfg ex cache symbol pct trace := by
  have hgf : get_symbol_filters { ex with account := ex.account ++ extra } cache
      symbol = get_symbol_filters ex cache symbol := rfl
  rcases hgs : get_symbol_filters ex cache symbol with ⟨r, c2, calls⟩
  simp only [afterGate, hgf, hgs]
  cases r with
  | error e => rfl
  | ok s =>
    cases hls : (parseFilters s.filters).lot_step with
    | none => simp only [hls]
    | some ls =>
      cases hts : (parseFilters s.filters).tick_size with
      | none => simp only [hls, hts]
      | some ts =>
        simp only [hls, hts]
        exact afterFilters_append_non_stable cfg ex c2 symbol pct (trace ++ calls)
          ls ts (parseFilters s.filters).min_notional extra hextra

/-- Claim C10: with any configured maximum other than 1 the position gate is
skipped entirely: the gate decline can never be returned, at most one balance
fetch (the sizing one) occurs, and adding managed-asset holdings to the
account changes nothing about the invocation. -/
theorem gate_only_at_max_one (cfg : Config) (ex : Exchange)
    (cache : List (String × SymbolInfo)) (symbol : String) (pct : ℚ)
    (extra : List Balance)
    (hmax : cfg.maxPositions ≠ 1)
    (hextra : ∀ b ∈ extra, stableAssets.contains b.asset = false) :
    (entry_for_symbol cfg ex cache symbol pct).1 ≠ EntryResult.declinedGate ∧
    List.count Call.getAccount (entry_for_symbol cfg ex cache symbol pct).2.1 ≤ 1 ∧
    entry_for_symbol cfg { ex with account := ex.account ++ extra } cache symbol pct
      = entry_for_symbol cfg ex cache symbol pct := by
  rw [entry_for_symbol, if_neg hmax]
  rw [entry_for_symbol, if_neg hmax]
  exact ⟨(afterGate_shape cfg ex cache symbol pct).1,
    (afterGate_shape cfg ex cache symbol pct).2,
    afterGate_append_non_stable cfg ex cache symbol pct [] extra hextra⟩

/-- Witness for C10 at max positions 2 with an extra BONK holding. -/
theorem gate_only_at_max_one_witness :
    (entry_for_symbol config2 exBase [] "SOLUSD" 5).1 ≠ EntryResult.declinedGate ∧
    List.count Call.getAccount (entry_for_symbol config2 exBase [] "SOLUSD" 5).2.1
      ≤ 1 ∧
    entry_for_symbol config2
      { exBase with account := exBase.account
          ++ [{ asset := "BONK", free := 5, locked := 0 }] } [] "SOLUSD" 5
      = entry_for_symbol config2 exBase [] "SOLUSD" 5 :=
  gate_only_at_max_one config2 exBase [] "SOLUSD" 5
    [{ asset := "BONK", free := 5, locked := 0 }] (by decide)
    (by intro b hb; rw [List.mem_singleton] at hb; subst hb; rfl)

/-- Cache lookup commutes with rewriting every cached rule set's minQty. -/
lemma lookup_map_minQty (v : Option ℚ) (cache : List (String × SymbolInfo))
    (symbol : String) :
    List.lookup symbol (cache.map (fun kv => (kv.1, mapMinQty v kv.2)))
      = (List.lookup symbol cache).map (mapMinQty v) := by
  induction cache with
  | nil => rfl
  | cons kv rest ih =>
    rcases kv with ⟨k, si⟩
    by_cases h : symbol == k
    · simp [List.lookup, h]
    · simp [List.lookup, h, ih]

/-- Catalog search commutes with rewriting every rule set's minQty. -/
lemma find?_map_minQty (v : Option ℚ) (l : List SymbolInfo) (symbol : String) :
    (l.map (mapMinQty v)).find? (fun t => t.symbol == symbol)
      = (l.find? (fun t => t.symbol == symbol)).map (mapMinQty v) := by
  rw [List.find?_map]
  rfl

/-- The filter fold reads nothing but `minQty` from the minQty field: every
other parsed component is unchanged under a minQty rewrite. -/
lemma pfFold_setMinQty (v : Option ℚ) (fs : List Filter) (acc1 acc2 : ParsedFilters)
    (h1 : acc1.lot_step = acc2.lot_step) (h2 : acc1.min_notional = acc2.min_notional)
    (h3 : acc1.tick_size = acc2.tick_size) :
    ((fs.map (setMinQty v)).foldl pfStep acc1).lot_step
        = (fs.foldl pfStep acc2).lot_step ∧
    ((fs.map (setMinQty v)).foldl pfStep acc1).min_notional
        = (fs.foldl pfStep acc2).min_notional ∧
    ((fs.map (setMinQty v)).foldl pfStep acc1).tick_size
        = (fs.foldl pfStep acc2).tick_size := by
  induction fs generalizing acc1 acc2 with
  | nil => exact ⟨h1, h2, h3⟩
  | cons f fs ih =>
    simp only [List.map_cons, List.foldl_cons]
    apply ih <;>
      · simp only [pfStep, setMinQty]
        split_ifs <;> simp [h1, h2, h3, minNotionalOf]

/-- Parsing under a minQty rewrite: lot step, min notional and tick
are untouched. -/
lemma parseFilters_map_setMinQty (v : Option ℚ) (fs : List Filter) :
    (parseFilters (fs.map (setMinQty v))).lot_step = (parseFilters fs).lot_step ∧
    (parseFilters (fs.map (setMinQty v))).min_notional
        = (parseFilters fs).min_notional ∧
    (parseFilters (fs.map (setMinQty v))).tick_size = (parseFilters fs).tick_size :=
  pfFold_setMinQty v fs _ _ rfl rfl rfl

/-- The rules lookup under a minQty rewrite of catalog and cache returns the
minQty-rewritten rule set, the minQty-rewritten cache, the same calls. -/
lemma get_symbol_filters_map_minQty (v : Option ℚ) (ex : Exchange)
    (cache : List (String × SymbolInfo)) (symbol : String) :
    get_symbol_filters { ex with exinfo := ex.exinfo.map (mapMinQty v) }
      (cache.map (fun kv => (kv.1, mapMinQty v kv.2))) symbol
      = ((get_symbol_filters ex cache symbol).1.map (mapMinQty v),
         (get_symbol_filters ex cache symbol).2.1.map
           (fun kv => (kv.1, mapMinQty v kv.2)),
         (get_symbol_filters ex cache symbol).2.2) := by
  cases hl : List.lookup symbol cache with
  | some s =>
    have hl' : List.lookup symbol (cache.map (fun kv => (kv.1, mapMinQty v kv.2)))
        = some (mapMinQty v s) := by
      rw [lookup_map_minQty, hl]; rfl
    simp only [get_symbol_filters, hl, hl']
    rfl
  | none =>
    have hl' : List.lookup symbol (cache.map (fun kv => (kv.1, mapMinQty v kv.2)))
        = none := by
      rw [lookup_map_minQty, hl]; rfl
    by_cases hst : 400 ≤ ex.exinfoStatus
    · simp only [get_symbol_filters, hl, hl']
      rw [if_pos hst, if_pos hst]
      rfl
    · cases hf : ex.exinfo.find? (fun s => s.symbol == symbol) with
      | some s =>
        have hf' : (ex.exinfo.map (mapMinQty v)).find?
            (fun t => t.symbol == symbol) = some (mapMinQty v s) := by
          rw [find?_map_minQty, hf]; rfl
        simp only [get_symbol_filters, hl, hl', hf, hf']
        rw [if_neg hst, if_neg hst]
        rfl
      | none =>
        have hf' : (ex.exinfo.map (mapMinQty v)).find?
            (fun t => t.symbol == symbol) = none := by
          rw [find?_map_minQty, hf]; rfl
        simp only [get_symbol_filters, hl, hl', hf, hf']
        rw [if_neg hst, if_neg hst]
        rfl

/-- Steps 3-5 read neither the catalog nor the cache contents: result and
trace are independent of them. -/
lemma afterFilters_exinfo_irrel (cfg : Config) (ex : Exchange)
    (X : List SymbolInfo) (cache cache' : List (String × SymbolInfo))
    (symbol : String) (pct : ℚ) (trace : List Call) (ls ts mn : ℚ) :
    ((afterFilters cfg { ex with exinfo := X } cache' symbol pct trace ls ts mn).1,
     (afterFilters cfg { ex with exinfo := X } cache' symbol pct trace ls ts mn).2.1)
      = ((afterFilters cfg ex cache symbol pct trace ls ts mn).1,
         (afterFilters cfg ex cache symbol pct trace ls ts mn).2.1) := by
  simp only [afterFilters]
  split_ifs <;> rfl

/-- Steps 2-5 under a minQty rewrite: same result, same calls. -/
lemma afterGate_map_minQty (cfg : Config) (ex : Exchange)
    (cache : List (String × SymbolInfo)) (symbol : String) (pct : ℚ)
    (trace : List Call) (v : Option ℚ) :
    ((afterGate cfg { ex with exinfo := ex.exinfo.map (mapMinQty v) }
        (cache.map (fun kv => (kv.1, mapMinQty v kv.2))) symbol pct trace).1,
     (afterGate cfg { ex with exinfo := ex.exinfo.map (mapMinQty v) }
        (cache.map (fun kv => (kv.1, mapMinQty v kv.2))) symbol pct trace).2.1)
      = ((afterGate cfg ex cache symbol pct trace).1,
         (afterGate cfg ex cache symbol pct trace).2.1) := by
  have hg := get_symbol_filters_map_minQty v ex cache symbol
  rcases hgs : get_symbol_filters ex cache symbol with ⟨r, c2, calls⟩
  rw [hgs] at hg
  cases r with
  | error e =>
    simp only [afterGate, hg, hgs, Except.map]
  | ok s =>
    simp only [afterGate, hg, hgs, Except.map]
    obtain ⟨e1, e2, e3⟩ := parseFilters_map_setMinQty v s.filters
    have hfil : (mapMinQty v s).filters = s.filters.map (setMinQty v) := rfl
    rw [hfil, e1, e3]
    cases hls : (parseFilters s.filters).lot_step with
    | none => simp only [hls]
    | some ls =>
      cases hts : (parseFilters s.filters).tick_size with
      | none => simp only [hls, hts]
      | some ts =>
        simp only [hls, hts]
        rw [e2]
        exact afterFilters_exinfo_irrel cfg ex (ex.exinfo.map (mapMinQty v))
          c2 (c2.map (fun kv => (kv.1, mapMinQty v kv.2))) symbol pct
          (trace ++ calls) ls ts (parseFilters s.filters).min_notional

/-- The full `exBase` run: gate passes, rules fetched and cached, 0.5 SOL
bought at 100, OCO placed at 115 / 94 / 93.91. -/
lemma entry_exBase_run :
    entry_for_symbol defaultConfig exBase [] "SOLUSD" 5
      = (EntryResult.accepted "" "" 115 94,
         [Call.getAccount, Call.getExchangeInfo, Call.getAccount,
          Call.getPrice "SOLUSD", Call.postOrder "SOLUSD" "BUY" "MARKET" (1 / 2),
          Call.postOco "SOLUSD" (1 / 2) 115 94 (9391 / 100)],
         [("SOLUSD", siSOL)]) := by
  rw [entry_for_symbol, if_pos (show defaultConfig.maxPositions = 1 by rfl),
    if_neg (by decide), if_neg (by simp [has_any_position_exBase])]
  have hgs : get_symbol_filters exBase [] "SOLUSD"
      = (Except.ok siSOL, [("SOLUSD", siSOL)], [Call.getExchangeInfo]) := rfl
  simp only [afterGate, hgs, parseFilters_siSOL]
  simp only [afterFilters]
  rw [stableFree_exBase, if_neg (by decide : ¬400 ≤ exBase.accountStatus),
    if_neg (by norm_num : ¬(1000 : ℚ) ≤ 0),
    if_neg (by decide : ¬400 ≤ exBase.priceStatus)]
  have hpr : exBase.priceOf "SOLUSD" = 100 := rfl
  have hnot : notionalFor 10 1000 5 = 50 := by
    rw [notionalFor, max_eq_right (by norm_num : (10 : ℚ) + 1 ≤ 1000 * (5 / 100))]
    norm_num
  have hq : _step ((50 : ℚ) / 100) (1 / 10) = 1 / 2 := by
    rw [_step, (by norm_num : (50 : ℚ) / 100 / (1 / 10) = 5),
      floor_eval (n := 5) (by norm_num) (by norm_num)]
    norm_num
  rw [hpr, hnot, hq, if_neg (by norm_num : ¬(1 / 2 : ℚ) ≤ 0),
    if_neg (by decide : ¬400 ≤ exBase.buyStatus),
    if_neg (by decide : ¬400 ≤ exBase.ocoStatus)]
  have hep : exitPrices defaultConfig.tpPct defaultConfig.slPct (100 : ℚ) (1 / 100)
      = (115, 94, 9391 / 100) := exitPrices_scenario
  rw [hep]
  rfl

/-- Claim C9: the lot-size minimum quantity is parsed but never used —
rewriting it arbitrarily in catalog and cache changes neither the result nor
the calls made — and on `exBase` the computed quantity 0.5 is positive yet
below the parsed minQty 1, and the market buy is still placed with it. -/
theorem minQty_read_never_enforced :
    (∀ (cfg : Config) (ex : Exchange) (cache : List (String × SymbolInfo))
        (symbol : String) (pct : ℚ) (v : Option ℚ),
      ((entry_for_symbol cfg { ex with exinfo := ex.exinfo.map (mapMinQty v) }
          (cache.map (fun kv => (kv.1, mapMinQty v kv.2))) symbol pct).1
        = (entry_for_symbol cfg ex cache symbol pct).1) ∧
      ((entry_for_symbol cfg { ex with exinfo := ex.exinfo.map (mapMinQty v) }
          (cache.map (fun kv => (kv.1, mapMinQty v kv.2))) symbol pct).2.1
        = (entry_for_symbol cfg ex cache symbol pct).2.1)) ∧
    ((parseFilters siSOL.filters).min_qty = some 1 ∧
      (0 : ℚ) < 1 / 2 ∧ (1 : ℚ) / 2 < 1 ∧
      Call.postOrder "SOLUSD" "BUY" "MARKET" (1 / 2)
        ∈ (entry_for_symbol defaultConfig exBase [] "SOLUSD" 5).2.1) := by
  constructor
  · intro cfg ex cache symbol pct v
    simp only [entry_for_symbol]
    split_ifs with h1 h2 h3
    · exact ⟨rfl, rfl⟩
    · exact ⟨rfl, rfl⟩
    · have h := afterGate_map_minQty cfg ex cache symbol pct [Call.getAccount] v
      have ha := congrArg Prod.fst h
      have hb := congrArg Prod.snd h
      exact ⟨ha, hb⟩
    · have h := afterGate_map_minQty cfg ex cache symbol pct [] v
      have ha := congrArg Prod.fst h
      have hb := congrArg Prod.snd h
      exact ⟨ha, hb⟩
  · refine ⟨rfl, by norm_num, by norm_num, ?_⟩
    rw [entry_exBase_run]
    simp

end WebhookBot
